import Mathlib

/-!
# Mbed TLS public key layer: internal accessors (`library/pk_internal.h`)

A shallow embedding of the inline functions of `pk_internal.h`:

* `mbedtls_pk_ec_ro` / `mbedtls_pk_ec_rw`: narrow a generic key handle to the
  address of its wrapped elliptic-curve keypair;
* `mbedtls_pk_get_group_id`: the group identifier of an EC key handle, in either
  of the two build configurations selected by `MBEDTLS_PK_USE_PSA_EC_DATA`;
* `mbedtls_pk_update_public_key_from_keypair`: only declared in the header.

C pointers are addresses (`ptr`, with `NULL = 0`); the keypair objects they point
at live in an explicit `memory`.  Dereferencing `NULL` or an address that holds no
keypair has no defined result, which the embedding renders as `none`.
-/

namespace PkInternal

/-! ## Data model -/

/-- Modelled from the spec: the key-kind enumeration is declared in `mbedtls/pk.h`,
which is not among the sources.  The three EC-family kinds are the case labels of
the switch in `mbedtls_pk_ec_ro`; the remaining constructors are the non-EC kinds
(among them the kind of a handle that was never set up, and RSA). -/
inductive mbedtls_pk_type_t
  | MBEDTLS_PK_NONE
  | MBEDTLS_PK_RSA
  | MBEDTLS_PK_ECKEY
  | MBEDTLS_PK_ECKEY_DH
  | MBEDTLS_PK_ECDSA
  | MBEDTLS_PK_RSA_ALT
  | MBEDTLS_PK_RSASSA_PSS
  | MBEDTLS_PK_OPAQUE
  deriving DecidableEq, Repr

/-- Modelled from the spec: the group identifier enumeration is declared in
`mbedtls/ecp.h`, which is not among the sources.  It names one elliptic curve each,
plus the "unknown/none" sentinel `MBEDTLS_ECP_DP_NONE`. -/
inductive mbedtls_ecp_group_id
  | MBEDTLS_ECP_DP_NONE
  | MBEDTLS_ECP_DP_SECP192R1
  | MBEDTLS_ECP_DP_SECP224R1
  | MBEDTLS_ECP_DP_SECP256R1
  | MBEDTLS_ECP_DP_SECP384R1
  | MBEDTLS_ECP_DP_SECP521R1
  | MBEDTLS_ECP_DP_BP256R1
  | MBEDTLS_ECP_DP_BP384R1
  | MBEDTLS_ECP_DP_BP512R1
  | MBEDTLS_ECP_DP_CURVE25519
  | MBEDTLS_ECP_DP_SECP192K1
  | MBEDTLS_ECP_DP_SECP224K1
  | MBEDTLS_ECP_DP_SECP256K1
  | MBEDTLS_ECP_DP_CURVE448
  deriving DecidableEq, Repr

/-- Modelled from the spec: the group descriptor of a keypair (declared in
`mbedtls/ecp.h`); the header reads only its group-identifier field `id`. -/
structure mbedtls_ecp_group where
  id : mbedtls_ecp_group_id
  deriving DecidableEq, Repr

/-- Modelled from the spec: the elliptic-curve keypair (declared in `mbedtls/ecp.h`):
a group descriptor `grp`, the private scalar `d` and the public point `Q`
(affine coordinates). -/
structure mbedtls_ecp_keypair where
  grp : mbedtls_ecp_group
  d : Nat
  Q : Nat × Nat
  deriving DecidableEq, Repr

/-- A C object pointer: an address. -/
abbrev ptr := Nat

/-- The null pointer. -/
def NULL : ptr := 0

/-- The keypair objects in memory: `mem a = some kp` when address `a` holds the
live keypair `kp`, `none` when no keypair lives there. -/
abbrev memory := ptr → Option mbedtls_ecp_keypair

/-- Reading a keypair through a pointer (`*p`, `p->...`): undefined for `NULL` and
for an address that holds no keypair. -/
def load (mem : memory) (p : ptr) : Option mbedtls_ecp_keypair :=
  if p = NULL then none else mem p

/-- Writing a keypair through a non-const pointer (`*p = kp`, or a field update
`p->f = v` with `kp` the updated object): undefined unless `p` points at a live
keypair; every other address keeps its content. -/
def store (mem : memory) (p : ptr) (kp : mbedtls_ecp_keypair) : Option memory :=
  match load mem p with
  | none => none
  | some _ => some (fun q => if q = p then some kp else mem q)

/-- Modelled from the spec: the key handle `mbedtls_pk_context` is declared in
`mbedtls/pk.h`, which is not among the sources.  Its attributes are the key-kind
tag, the storage slot `pk_ctx` (a `void *`), and the fields that exist only when
`MBEDTLS_PK_USE_PSA_EC_DATA` is defined: the cached raw public key `pub_raw` with
its length `pub_raw_len`, the curve family `ec_family` and the bit length
`ec_bits`. -/
structure mbedtls_pk_context where
  key_kind : mbedtls_pk_type_t
  pk_ctx : ptr
  pub_raw : List Nat
  pub_raw_len : Nat
  ec_family : Nat
  ec_bits : Nat
  deriving DecidableEq, Repr

/-- Modelled from the spec: `mbedtls_pk_get_type` is declared in `mbedtls/pk.h` and
defined outside the sources; it returns the key-kind tag of the handle. -/
def mbedtls_pk_get_type (ctx : mbedtls_pk_context) : mbedtls_pk_type_t :=
  ctx.key_kind

/-- The key-kind is one of the three EC-family kinds, the case labels of the
accessors' switch. -/
def ec_family_kind (t : mbedtls_pk_type_t) : Prop :=
  t = mbedtls_pk_type_t.MBEDTLS_PK_ECKEY ∨
  t = mbedtls_pk_type_t.MBEDTLS_PK_ECKEY_DH ∨
  t = mbedtls_pk_type_t.MBEDTLS_PK_ECDSA

instance ec_family_kind_decidable (t : mbedtls_pk_type_t) : Decidable (ec_family_kind t) := by
  unfold ec_family_kind
  infer_instance

/-! ## The typed accessors (`pk_internal.h`, lines 60-82) -/

/-- The read-only accessor `mbedtls_pk_ec_ro`: for the three EC-family kinds the
storage slot cast to `const mbedtls_ecp_keypair *`, otherwise `NULL`. -/
def mbedtls_pk_ec_ro (pk : mbedtls_pk_context) : ptr :=
  match mbedtls_pk_get_type pk with
  | mbedtls_pk_type_t.MBEDTLS_PK_ECKEY => pk.pk_ctx
  | mbedtls_pk_type_t.MBEDTLS_PK_ECKEY_DH => pk.pk_ctx
  | mbedtls_pk_type_t.MBEDTLS_PK_ECDSA => pk.pk_ctx
  | _ => NULL

/-- The read-write accessor `mbedtls_pk_ec_rw`: for the three EC-family kinds the
storage slot cast to `mbedtls_ecp_keypair *`, otherwise `NULL`. -/
def mbedtls_pk_ec_rw (pk : mbedtls_pk_context) : ptr :=
  match mbedtls_pk_get_type pk with
  | mbedtls_pk_type_t.MBEDTLS_PK_ECKEY => pk.pk_ctx
  | mbedtls_pk_type_t.MBEDTLS_PK_ECKEY_DH => pk.pk_ctx
  | mbedtls_pk_type_t.MBEDTLS_PK_ECDSA => pk.pk_ctx
  | _ => NULL

/-! ## The group identifier (`pk_internal.h`, lines 84-93) -/

/-- Modelled from the spec: `mbedtls_ecc_group_of_psa` is defined in `psa_util.c`,
outside the sources.  It is a fixed mapping table from (family, bit-length) to a
group identifier that yields the "unknown/none" sentinel where the table has no
entry.  The table itself is the parameter `table`: `table curve bits sloppy` is the
entry for the pair under the given inexact-bits flag, `none` when there is none. -/
def mbedtls_ecc_group_of_psa (table : Nat → Nat → Int → Option mbedtls_ecp_group_id)
    (curve : Nat) (bits : Nat) (bits_is_sloppy : Int) : mbedtls_ecp_group_id :=
  match table curve bits bits_is_sloppy with
  | some g => g
  | none => mbedtls_ecp_group_id.MBEDTLS_ECP_DP_NONE

/-- The resolver `mbedtls_pk_get_group_id`.  `use_psa_ec_data` is the build option
`MBEDTLS_PK_USE_PSA_EC_DATA`.  When it is defined the identifier is
`mbedtls_ecc_group_of_psa(pk->ec_family, pk->ec_bits, 0)`; otherwise it is
`mbedtls_pk_ec_ro(*pk)->grp.id`, an unchecked dereference whose result is `none`
when the accessor's pointer cannot be read.  The argument `pk` is the handle behind
the pointer the C function receives. -/
def mbedtls_pk_get_group_id (use_psa_ec_data : Bool)
    (table : Nat → Nat → Int → Option mbedtls_ecp_group_id)
    (mem : memory) (pk : mbedtls_pk_context) : Option mbedtls_ecp_group_id :=
  if use_psa_ec_data then
    some (mbedtls_ecc_group_of_psa table pk.ec_family pk.ec_bits 0)
  else
    match load mem (mbedtls_pk_ec_ro pk) with
    | none => none
    | some kp => some kp.grp.id

/-! ## The public-key synchroniser (`pk_internal.h`, lines 101-114) -/

/-- Modelled from the spec: the two indicators the synchroniser returns, a success
indicator and a distinct failure indicator. -/
inductive sync_status
  | success
  | encoding_failure
  deriving DecidableEq, Repr

/-- Modelled from the spec: what a call of the synchroniser leaves behind, namely
the returned indicator, the handle behind `pk` and the keypair behind
`ecp_keypair`. -/
structure sync_result where
  ret : sync_status
  pk : mbedtls_pk_context
  ecp_keypair : mbedtls_ecp_keypair
  deriving DecidableEq, Repr

/-- Modelled from the spec: `mbedtls_pk_update_public_key_from_keypair` is only
declared in the header (lines 112-113); its body is outside the sources.  It copies
the keypair's public-key material into the handle's cached raw buffer in the fixed
wire format.  On success the buffer holds exactly the newly encoded bytes, replacing
any prior content, and a success indicator is returned; on encoding failure a
distinct failure indicator is returned and the buffer is left in an unspecified
state.  Only the handle's cached buffer is mutated; the source keypair is not.
`encode` is the curve component's encode-public-key-to-bytes operation (`none` when
it fails) and `on_failure` is the unspecified content of the buffer after a
failure. -/
def mbedtls_pk_update_public_key_from_keypair
    (encode : mbedtls_ecp_keypair → Option (List Nat))
    (on_failure : mbedtls_pk_context → mbedtls_ecp_keypair → List Nat)
    (pk : mbedtls_pk_context) (ecp_keypair : mbedtls_ecp_keypair) : sync_result :=
  match encode ecp_keypair with
  | some bytes =>
    { ret := sync_status.success,
      pk := { pk with pub_raw := bytes, pub_raw_len := bytes.length },
      ecp_keypair := ecp_keypair }
  | none =>
    { ret := sync_status.encoding_failure,
      pk := { pk with pub_raw := on_failure pk ecp_keypair,
                      pub_raw_len := (on_failure pk ecp_keypair).length },
      ecp_keypair := ecp_keypair }

/-! ## Sample data -/

/-- A keypair on secp256r1. -/
def sample_keypair : mbedtls_ecp_keypair :=
  { grp := { id := mbedtls_ecp_group_id.MBEDTLS_ECP_DP_SECP256R1 }, d := 7, Q := (11, 13) }

/-- A memory whose only keypair is `sample_keypair`, at address 4096. -/
def sample_memory : memory :=
  fun a => if a = 4096 then some sample_keypair else none

/-- A generic EC key handle whose storage slot points at `sample_keypair`. -/
def sample_ec_handle : mbedtls_pk_context :=
  { key_kind := mbedtls_pk_type_t.MBEDTLS_PK_ECKEY, pk_ctx := 4096,
    pub_raw := [], pub_raw_len := 0, ec_family := 18, ec_bits := 256 }

/-- A generic EC key handle whose non-null storage slot points at no live keypair
of `sample_memory`. -/
def sample_dangling_handle : mbedtls_pk_context :=
  { key_kind := mbedtls_pk_type_t.MBEDTLS_PK_ECKEY, pk_ctx := 8192,
    pub_raw := [], pub_raw_len := 0, ec_family := 18, ec_bits := 256 }

/-- An RSA key handle with a non-null storage slot. -/
def sample_rsa_handle : mbedtls_pk_context :=
  { key_kind := mbedtls_pk_type_t.MBEDTLS_PK_RSA, pk_ctx := 8192,
    pub_raw := [], pub_raw_len := 0, ec_family := 0, ec_bits := 0 }

/-- A mapping table with the single entry (18, 256) -> secp256r1, whatever the
inexact-bits flag. -/
def sample_table : Nat → Nat → Int → Option mbedtls_ecp_group_id :=
  fun curve bits _ =>
    if curve = 18 ∧ bits = 256 then some mbedtls_ecp_group_id.MBEDTLS_ECP_DP_SECP256R1
    else none

/-- An encoder that writes the uncompressed-point marker followed by the two
coordinates, and fails on the point (0, 0). -/
def sample_encode : mbedtls_ecp_keypair → Option (List Nat) :=
  fun kp => if kp.Q = (0, 0) then none else some [4, kp.Q.1, kp.Q.2]

/-- A failure policy that empties the buffer. -/
def sample_on_failure : mbedtls_pk_context → mbedtls_ecp_keypair → List Nat :=
  fun _ _ => []

/-! ## Helper lemmas -/

theorem ec_ro_of_ec_kind (pk : mbedtls_pk_context)
    (h : ec_family_kind (mbedtls_pk_get_type pk)) : mbedtls_pk_ec_ro pk = pk.pk_ctx := by
  unfold mbedtls_pk_ec_ro
  rcases h with h | h | h <;> rw [h]

theorem ec_rw_of_ec_kind (pk : mbedtls_pk_context)
    (h : ec_family_kind (mbedtls_pk_get_type pk)) : mbedtls_pk_ec_rw pk = pk.pk_ctx := by
  unfold mbedtls_pk_ec_rw
  rcases h with h | h | h <;> rw [h]

theorem ec_ro_of_not_ec_kind (pk : mbedtls_pk_context)
    (h : ¬ ec_family_kind (mbedtls_pk_get_type pk)) : mbedtls_pk_ec_ro pk = NULL := by
  unfold mbedtls_pk_ec_ro
  unfold ec_family_kind at h
  cases hk : mbedtls_pk_get_type pk <;> simp_all

theorem ec_rw_of_not_ec_kind (pk : mbedtls_pk_context)
    (h : ¬ ec_family_kind (mbedtls_pk_get_type pk)) : mbedtls_pk_ec_rw pk = NULL := by
  unfold mbedtls_pk_ec_rw
  unfold ec_family_kind at h
  cases hk : mbedtls_pk_get_type pk <;> simp_all

theorem load_of_live (mem : memory) (p : ptr) (kp : mbedtls_ecp_keypair)
    (hnn : p ≠ NULL) (hv : mem p = some kp) : load mem p = some kp := by
  unfold load
  rw [if_neg hnn, hv]

theorem load_null (mem : memory) : load mem NULL = none := by
  unfold load
  rw [if_pos rfl]

/-! ## The typed accessors -/

/-- C1: for every key handle whose key-kind, as returned by `mbedtls_pk_get_type`, is
not one of `MBEDTLS_PK_ECKEY`, `MBEDTLS_PK_ECKEY_DH`, `MBEDTLS_PK_ECDSA`, and for
every content `slot` of the storage slot `pk_ctx`, both `mbedtls_pk_ec_ro` and
`mbedtls_pk_ec_rw` return `NULL`.  Both are total functions into pointers, so there
is no error outcome. -/
theorem accessors_absent_of_non_ec (pk : mbedtls_pk_context) (slot : ptr)
    (h : ¬ ec_family_kind (mbedtls_pk_get_type pk)) :
    mbedtls_pk_ec_ro { pk with pk_ctx := slot } = NULL ∧
    mbedtls_pk_ec_rw { pk with pk_ctx := slot } = NULL :=
  ⟨ec_ro_of_not_ec_kind _ h, ec_rw_of_not_ec_kind _ h⟩

theorem accessors_absent_of_non_ec_witness :
    mbedtls_pk_ec_ro { sample_rsa_handle with pk_ctx := 4096 } = NULL ∧
    mbedtls_pk_ec_rw { sample_rsa_handle with pk_ctx := 4096 } = NULL :=
  accessors_absent_of_non_ec sample_rsa_handle 4096 (by decide)

/-- C2: for every key handle whose key-kind is one of `MBEDTLS_PK_ECKEY`,
`MBEDTLS_PK_ECKEY_DH`, `MBEDTLS_PK_ECDSA`, each of `mbedtls_pk_ec_ro` and
`mbedtls_pk_ec_rw` returns exactly the storage slot `pk_ctx` of the handle, and the
result is `NULL` only when the slot itself is `NULL`. -/
theorem accessors_return_slot_of_ec (pk : mbedtls_pk_context)
    (h : ec_family_kind (mbedtls_pk_get_type pk)) :
    mbedtls_pk_ec_ro pk = pk.pk_ctx ∧ mbedtls_pk_ec_rw pk = pk.pk_ctx ∧
    (mbedtls_pk_ec_ro pk = NULL ↔ pk.pk_ctx = NULL) ∧
    (mbedtls_pk_ec_rw pk = NULL ↔ pk.pk_ctx = NULL) := by
  rw [ec_ro_of_ec_kind pk h, ec_rw_of_ec_kind pk h]
  exact ⟨rfl, rfl, Iff.rfl, Iff.rfl⟩

theorem accessors_return_slot_of_ec_witness :
    mbedtls_pk_ec_ro sample_ec_handle = 4096 ∧ mbedtls_pk_ec_rw sample_ec_handle = 4096 ∧
    (mbedtls_pk_ec_ro sample_ec_handle = NULL ↔ sample_ec_handle.pk_ctx = NULL) ∧
    (mbedtls_pk_ec_rw sample_ec_handle = NULL ↔ sample_ec_handle.pk_ctx = NULL) :=
  accessors_return_slot_of_ec sample_ec_handle (by decide)

/-- C3: for every key handle of an EC-family key-kind whose storage slot points at a
live keypair, `mbedtls_pk_ec_ro` and `mbedtls_pk_ec_rw` return the same non-null
address, and reading through either yields that one keypair. -/
theorem accessors_identity_equal (mem : memory) (pk : mbedtls_pk_context)
    (kp : mbedtls_ecp_keypair)
    (hkind : ec_family_kind (mbedtls_pk_get_type pk))
    (hnn : pk.pk_ctx ≠ NULL) (hv : mem pk.pk_ctx = some kp) :
    mbedtls_pk_ec_ro pk = mbedtls_pk_ec_rw pk ∧ mbedtls_pk_ec_ro pk ≠ NULL ∧
    load mem (mbedtls_pk_ec_ro pk) = some kp ∧
    load mem (mbedtls_pk_ec_rw pk) = some kp := by
  rw [ec_ro_of_ec_kind pk hkind, ec_rw_of_ec_kind pk hkind]
  exact ⟨rfl, hnn, load_of_live mem _ kp hnn hv, load_of_live mem _ kp hnn hv⟩

theorem accessors_identity_equal_witness :
    mbedtls_pk_ec_ro sample_ec_handle = mbedtls_pk_ec_rw sample_ec_handle ∧
    mbedtls_pk_ec_ro sample_ec_handle ≠ NULL ∧
    load sample_memory (mbedtls_pk_ec_ro sample_ec_handle) = some sample_keypair ∧
    load sample_memory (mbedtls_pk_ec_rw sample_ec_handle) = some sample_keypair :=
  accessors_identity_equal sample_memory sample_ec_handle sample_keypair
    (by decide) (by decide) (by decide)

/-! ## The group identifier -/

theorem get_group_id_classic_of_live (table : Nat → Nat → Int → Option mbedtls_ecp_group_id)
    (mem : memory) (pk : mbedtls_pk_context) (kp : mbedtls_ecp_keypair)
    (hkind : ec_family_kind (mbedtls_pk_get_type pk))
    (hnn : pk.pk_ctx ≠ NULL) (hv : mem pk.pk_ctx = some kp) :
    mbedtls_pk_get_group_id false table mem pk = some kp.grp.id := by
  unfold mbedtls_pk_get_group_id
  rw [ec_ro_of_ec_kind pk hkind, load_of_live mem _ kp hnn hv]
  rfl

theorem get_group_id_psa_eq (table : Nat → Nat → Int → Option mbedtls_ecp_group_id)
    (mem : memory) (pk : mbedtls_pk_context) :
    mbedtls_pk_get_group_id true table mem pk =
      some (mbedtls_ecc_group_of_psa table pk.ec_family pk.ec_bits 0) := by
  unfold mbedtls_pk_get_group_id
  rfl

/-- C4: with `MBEDTLS_PK_USE_PSA_EC_DATA` undefined, for every key handle of an
EC-family key-kind whose storage slot points at a live keypair `kp`,
`mbedtls_pk_get_group_id` returns exactly `kp.grp.id`; in particular, when the handle
is of kind `MBEDTLS_PK_ECKEY` and the keypair is on secp256r1, `mbedtls_pk_ec_ro` is
non-null and the resolver returns `MBEDTLS_ECP_DP_SECP256R1`. -/
theorem get_group_id_classic_reads_grp_id
    (table : Nat → Nat → Int → Option mbedtls_ecp_group_id)
    (mem : memory) (pk : mbedtls_pk_context) (kp : mbedtls_ecp_keypair)
    (hkind : ec_family_kind (mbedtls_pk_get_type pk))
    (hnn : pk.pk_ctx ≠ NULL) (hv : mem pk.pk_ctx = some kp) :
    mbedtls_pk_get_group_id false table mem pk = some kp.grp.id ∧
    (mbedtls_pk_get_type pk = mbedtls_pk_type_t.MBEDTLS_PK_ECKEY →
      kp.grp.id = mbedtls_ecp_group_id.MBEDTLS_ECP_DP_SECP256R1 →
      mbedtls_pk_ec_ro pk ≠ NULL ∧
      mbedtls_pk_get_group_id false table mem pk =
        some mbedtls_ecp_group_id.MBEDTLS_ECP_DP_SECP256R1) := by
  have hg := get_group_id_classic_of_live table mem pk kp hkind hnn hv
  refine ⟨hg, fun _ hid => ⟨?_, ?_⟩⟩
  · rw [ec_ro_of_ec_kind pk hkind]
    exact hnn
  · rw [hg, hid]

theorem get_group_id_classic_reads_grp_id_witness :
    mbedtls_pk_ec_ro sample_ec_handle ≠ NULL ∧
    mbedtls_pk_get_group_id false sample_table sample_memory sample_ec_handle =
      some mbedtls_ecp_group_id.MBEDTLS_ECP_DP_SECP256R1 :=
  (get_group_id_classic_reads_grp_id sample_table sample_memory sample_ec_handle
    sample_keypair (by decide) (by decide) (by decide)).2 (by decide) (by decide)

/-- C5: with `MBEDTLS_PK_USE_PSA_EC_DATA` defined, for every key handle
`mbedtls_pk_get_group_id` returns, as an ordinary value, exactly
`mbedtls_ecc_group_of_psa` applied to the `ec_family` and `ec_bits` of the handle
with inexact-bits flag 0; any two handles (in any memory) with equal family and
bit-length get equal identifiers; and when the mapping table has no entry for the
pair the result is the ordinary value `MBEDTLS_ECP_DP_NONE`. -/
theorem get_group_id_psa_is_mapping
    (table : Nat → Nat → Int → Option mbedtls_ecp_group_id)
    (mem : memory) (pk : mbedtls_pk_context) :
    mbedtls_pk_get_group_id true table mem pk =
      some (mbedtls_ecc_group_of_psa table pk.ec_family pk.ec_bits 0) ∧
    (∀ (mem2 : memory) (pk2 : mbedtls_pk_context),
      pk2.ec_family = pk.ec_family → pk2.ec_bits = pk.ec_bits →
      mbedtls_pk_get_group_id true table mem2 pk2 =
        mbedtls_pk_get_group_id true table mem pk) ∧
    (table pk.ec_family pk.ec_bits 0 = none →
      mbedtls_pk_get_group_id true table mem pk =
        some mbedtls_ecp_group_id.MBEDTLS_ECP_DP_NONE) := by
  refine ⟨get_group_id_psa_eq table mem pk, ?_, ?_⟩
  · intro mem2 pk2 hf hb
    rw [get_group_id_psa_eq, get_group_id_psa_eq, hf, hb]
  · intro hnone
    rw [get_group_id_psa_eq]
    unfold mbedtls_ecc_group_of_psa
    rw [hnone]

theorem get_group_id_psa_is_mapping_witness :
    mbedtls_pk_get_group_id true sample_table sample_memory sample_rsa_handle =
      some mbedtls_ecp_group_id.MBEDTLS_ECP_DP_NONE ∧
    mbedtls_pk_get_group_id true sample_table (fun _ => none)
      { sample_rsa_handle with ec_family := 18, ec_bits := 256 } =
      mbedtls_pk_get_group_id true sample_table sample_memory sample_ec_handle :=
  ⟨(get_group_id_psa_is_mapping sample_table sample_memory sample_rsa_handle).2.2
      (by decide),
   (get_group_id_psa_is_mapping sample_table sample_memory sample_ec_handle).2.1
      (fun _ => none) { sample_rsa_handle with ec_family := 18, ec_bits := 256 } rfl rfl⟩

/-! ## Writing through the mutable view -/

theorem store_of_live (mem : memory) (p : ptr) (old kp : mbedtls_ecp_keypair)
    (hnn : p ≠ NULL) (hv : mem p = some old) :
    store mem p kp = some (fun q => if q = p then some kp else mem q) := by
  unfold store
  rw [load_of_live mem p old hnn hv]

/-- C7: for every key handle of an EC-family key-kind whose storage slot points at a
live keypair, replacing that keypair by any `kp_new` through the pointer returned by
`mbedtls_pk_ec_rw` succeeds, and in the resulting memory the pointer returned by
`mbedtls_pk_ec_ro` for the same (unchanged, passed by value) handle reads `kp_new`
and `mbedtls_pk_get_group_id` reports `kp_new.grp.id`; in particular, after writing
a new `grp.id` both report the new identifier. -/
theorem rw_write_visible_through_ro
    (table : Nat → Nat → Int → Option mbedtls_ecp_group_id)
    (mem : memory) (pk : mbedtls_pk_context) (kp kp_new : mbedtls_ecp_keypair)
    (hkind : ec_family_kind (mbedtls_pk_get_type pk))
    (hnn : pk.pk_ctx ≠ NULL) (hv : mem pk.pk_ctx = some kp) :
    ∃ mem2 : memory,
      store mem (mbedtls_pk_ec_rw pk) kp_new = some mem2 ∧
      load mem2 (mbedtls_pk_ec_ro pk) = some kp_new ∧
      mbedtls_pk_get_group_id false table mem2 pk = some kp_new.grp.id ∧
      (∀ new_id : mbedtls_ecp_group_id,
        kp_new = { kp with grp := { kp.grp with id := new_id } } →
        (load mem2 (mbedtls_pk_ec_ro pk)).map (fun k => k.grp.id) = some new_id ∧
        mbedtls_pk_get_group_id false table mem2 pk = some new_id) := by
  have hlive : (if pk.pk_ctx = pk.pk_ctx then some kp_new else mem pk.pk_ctx)
      = some kp_new := if_pos rfl
  have hload := load_of_live (fun q => if q = pk.pk_ctx then some kp_new else mem q)
    pk.pk_ctx kp_new hnn hlive
  have hget := get_group_id_classic_of_live table
    (fun q => if q = pk.pk_ctx then some kp_new else mem q) pk kp_new hkind hnn hlive
  refine ⟨fun q => if q = pk.pk_ctx then some kp_new else mem q, ?_, ?_, hget, ?_⟩
  · rw [ec_rw_of_ec_kind pk hkind]
    exact store_of_live mem pk.pk_ctx kp kp_new hnn hv
  · rw [ec_ro_of_ec_kind pk hkind]
    exact hload
  · intro new_id hnew
    rw [ec_ro_of_ec_kind pk hkind, hload, hget, hnew]
    exact ⟨rfl, rfl⟩

theorem rw_write_visible_through_ro_witness :
    ∃ mem2 : memory,
      store sample_memory (mbedtls_pk_ec_rw sample_ec_handle)
        { sample_keypair with
          grp := { id := mbedtls_ecp_group_id.MBEDTLS_ECP_DP_CURVE25519 } } = some mem2 ∧
      load mem2 (mbedtls_pk_ec_ro sample_ec_handle) =
        some { sample_keypair with
          grp := { id := mbedtls_ecp_group_id.MBEDTLS_ECP_DP_CURVE25519 } } ∧
      mbedtls_pk_get_group_id false sample_table mem2 sample_ec_handle =
        some mbedtls_ecp_group_id.MBEDTLS_ECP_DP_CURVE25519 := by
  obtain ⟨mem2, h1, h2, h3, _⟩ :=
    rw_write_visible_through_ro sample_table sample_memory sample_ec_handle sample_keypair
      { sample_keypair with grp := { id := mbedtls_ecp_group_id.MBEDTLS_ECP_DP_CURVE25519 } }
      (by decide) (by decide) (by decide)
  exact ⟨mem2, h1, h2, h3⟩

/-! ## The public-key synchroniser -/

theorem update_public_key_of_encoded
    (encode : mbedtls_ecp_keypair → Option (List Nat))
    (on_failure : mbedtls_pk_context → mbedtls_ecp_keypair → List Nat)
    (pk : mbedtls_pk_context) (kp : mbedtls_ecp_keypair) (bytes : List Nat)
    (hvalid : encode kp = some bytes) :
    mbedtls_pk_update_public_key_from_keypair encode on_failure pk kp =
      { ret := sync_status.success,
        pk := { pk with pub_raw := bytes, pub_raw_len := bytes.length },
        ecp_keypair := kp } := by
  unfold mbedtls_pk_update_public_key_from_keypair
  rw [hvalid]

/-- C8: for every key handle and every keypair whose public point encodes (to
`bytes`), two successive calls of `mbedtls_pk_update_public_key_from_keypair` with
that keypair both succeed, the first leaves exactly `bytes` (and its length) in the
cached raw public-key buffer, and the second leaves contents and length identical to
what the first left: the buffer is overwritten, not appended to. -/
theorem update_public_key_twice_same_buffer
    (encode : mbedtls_ecp_keypair → Option (List Nat))
    (on_failure : mbedtls_pk_context → mbedtls_ecp_keypair → List Nat)
    (pk : mbedtls_pk_context) (kp : mbedtls_ecp_keypair) (bytes : List Nat)
    (hvalid : encode kp = some bytes) :
    (mbedtls_pk_update_public_key_from_keypair encode on_failure pk kp).ret
      = sync_status.success ∧
    (mbedtls_pk_update_public_key_from_keypair encode on_failure pk kp).pk.pub_raw
      = bytes ∧
    (mbedtls_pk_update_public_key_from_keypair encode on_failure pk kp).pk.pub_raw_len
      = bytes.length ∧
    (mbedtls_pk_update_public_key_from_keypair encode on_failure
      (mbedtls_pk_update_public_key_from_keypair encode on_failure pk kp).pk
      (mbedtls_pk_update_public_key_from_keypair encode on_failure pk kp).ecp_keypair).ret
      = sync_status.success ∧
    (mbedtls_pk_update_public_key_from_keypair encode on_failure
      (mbedtls_pk_update_public_key_from_keypair encode on_failure pk kp).pk
      (mbedtls_pk_update_public_key_from_keypair encode on_failure pk kp).ecp_keypair).pk.pub_raw
      = (mbedtls_pk_update_public_key_from_keypair encode on_failure pk kp).pk.pub_raw ∧
    (mbedtls_pk_update_public_key_from_keypair encode on_failure
      (mbedtls_pk_update_public_key_from_keypair encode on_failure pk kp).pk
      (mbedtls_pk_update_public_key_from_keypair encode on_failure pk kp).ecp_keypair).pk.pub_raw_len
      = (mbedtls_pk_update_public_key_from_keypair encode on_failure pk kp).pk.pub_raw_len := by
  have hcall := update_public_key_of_encoded encode on_failure pk kp bytes hvalid
  rw [hcall]
  have hagain := update_public_key_of_encoded encode on_failure
    { pk with pub_raw := bytes, pub_raw_len := bytes.length } kp bytes hvalid
  refine ⟨rfl, rfl, rfl, ?_, ?_, ?_⟩
  · exact congrArg sync_result.ret hagain
  · exact congrArg (fun r => r.pk.pub_raw) hagain
  · exact congrArg (fun r => r.pk.pub_raw_len) hagain

theorem update_public_key_twice_same_buffer_witness :
    (mbedtls_pk_update_public_key_from_keypair sample_encode sample_on_failure
      { sample_ec_handle with pub_raw := [4, 1, 2, 9, 9], pub_raw_len := 5 }
      sample_keypair).pk.pub_raw = [4, 11, 13] ∧
    (mbedtls_pk_update_public_key_from_keypair sample_encode sample_on_failure
      (mbedtls_pk_update_public_key_from_keypair sample_encode sample_on_failure
        { sample_ec_handle with pub_raw := [4, 1, 2, 9, 9], pub_raw_len := 5 }
        sample_keypair).pk
      (mbedtls_pk_update_public_key_from_keypair sample_encode sample_on_failure
        { sample_ec_handle with pub_raw := [4, 1, 2, 9, 9], pub_raw_len := 5 }
        sample_keypair).ecp_keypair).pk.pub_raw
      = (mbedtls_pk_update_public_key_from_keypair sample_encode sample_on_failure
        { sample_ec_handle with pub_raw := [4, 1, 2, 9, 9], pub_raw_len := 5 }
        sample_keypair).pk.pub_raw :=
  ⟨(update_public_key_twice_same_buffer sample_encode sample_on_failure
      { sample_ec_handle with pub_raw := [4, 1, 2, 9, 9], pub_raw_len := 5 }
      sample_keypair [4, 11, 13] (by decide)).2.1,
   (update_public_key_twice_same_buffer sample_encode sample_on_failure
      { sample_ec_handle with pub_raw := [4, 1, 2, 9, 9], pub_raw_len := 5 }
      sample_keypair [4, 11, 13] (by decide)).2.2.2.2.1⟩

/-- C9: for every key handle and every keypair, whether the encoding succeeds or
fails, `mbedtls_pk_update_public_key_from_keypair` leaves the key-kind tag, the
storage slot, the curve family and the bit-length of the handle unchanged, and leaves
the source keypair unchanged: only `pub_raw` and `pub_raw_len` can differ. -/
theorem update_public_key_frame
    (encode : mbedtls_ecp_keypair → Option (List Nat))
    (on_failure : mbedtls_pk_context → mbedtls_ecp_keypair → List Nat)
    (pk : mbedtls_pk_context) (kp : mbedtls_ecp_keypair) :
    (mbedtls_pk_update_public_key_from_keypair encode on_failure pk kp).pk =
      { pk with
        pub_raw :=
          (mbedtls_pk_update_public_key_from_keypair encode on_failure pk kp).pk.pub_raw,
        pub_raw_len :=
          (mbedtls_pk_update_public_key_from_keypair encode on_failure pk kp).pk.pub_raw_len } ∧
    mbedtls_pk_get_type (mbedtls_pk_update_public_key_from_keypair encode on_failure pk kp).pk
      = mbedtls_pk_get_type pk ∧
    (mbedtls_pk_update_public_key_from_keypair encode on_failure pk kp).pk.pk_ctx
      = pk.pk_ctx ∧
    (mbedtls_pk_update_public_key_from_keypair encode on_failure pk kp).pk.ec_family
      = pk.ec_family ∧
    (mbedtls_pk_update_public_key_from_keypair encode on_failure pk kp).pk.ec_bits
      = pk.ec_bits ∧
    (mbedtls_pk_update_public_key_from_keypair encode on_failure pk kp).ecp_keypair = kp := by
  unfold mbedtls_pk_update_public_key_from_keypair
  cases encode kp <;> exact ⟨rfl, rfl, rfl, rfl, rfl, rfl⟩

/-! ## The unchecked dereference in the resolver -/

/-- C10 (amended): with `MBEDTLS_PK_USE_PSA_EC_DATA` undefined,
`mbedtls_pk_get_group_id` dereferences the result of `mbedtls_pk_ec_ro` unchecked.  It
has a defined result exactly when the key-kind is one of `MBEDTLS_PK_ECKEY`,
`MBEDTLS_PK_ECKEY_DH`, `MBEDTLS_PK_ECDSA` and the storage slot is non-null and points
at a live keypair; hence, for a handle whose non-null EC slot does point at a live
keypair, exactly when the key-kind is EC-family and the slot is non-null.  For every
handle of another key-kind, and for an EC-family handle with a null slot, the accessor
returns `NULL` and the resolver takes its error branch `none`; for an EC-family handle
whose slot holds a keypair that branch is not taken. -/
theorem get_group_id_classic_defined_iff
    (table : Nat → Nat → Int → Option mbedtls_ecp_group_id)
    (mem : memory) (pk : mbedtls_pk_context) :
    ((mbedtls_pk_get_group_id false table mem pk).isSome ↔
      (ec_family_kind (mbedtls_pk_get_type pk) ∧ pk.pk_ctx ≠ NULL ∧
        (mem pk.pk_ctx).isSome)) ∧
    ((ec_family_kind (mbedtls_pk_get_type pk) → pk.pk_ctx ≠ NULL →
        (mem pk.pk_ctx).isSome) →
      ((mbedtls_pk_get_group_id false table mem pk).isSome ↔
        (ec_family_kind (mbedtls_pk_get_type pk) ∧ pk.pk_ctx ≠ NULL))) ∧
    (¬ ec_family_kind (mbedtls_pk_get_type pk) →
      mbedtls_pk_ec_ro pk = NULL ∧ mbedtls_pk_get_group_id false table mem pk = none) ∧
    (ec_family_kind (mbedtls_pk_get_type pk) → pk.pk_ctx = NULL →
      mbedtls_pk_ec_ro pk = NULL ∧ mbedtls_pk_get_group_id false table mem pk = none) ∧
    (ec_family_kind (mbedtls_pk_get_type pk) → pk.pk_ctx ≠ NULL →
      (mem pk.pk_ctx).isSome →
      mbedtls_pk_get_group_id false table mem pk ≠ none) := by
  have hnon : ¬ ec_family_kind (mbedtls_pk_get_type pk) →
      mbedtls_pk_ec_ro pk = NULL ∧ mbedtls_pk_get_group_id false table mem pk = none := by
    intro hk
    refine ⟨ec_ro_of_not_ec_kind pk hk, ?_⟩
    unfold mbedtls_pk_get_group_id
    rw [ec_ro_of_not_ec_kind pk hk, load_null]
    rfl
  have hnull : ec_family_kind (mbedtls_pk_get_type pk) → pk.pk_ctx = NULL →
      mbedtls_pk_ec_ro pk = NULL ∧ mbedtls_pk_get_group_id false table mem pk = none := by
    intro hk h0
    have hro : mbedtls_pk_ec_ro pk = NULL := by rw [ec_ro_of_ec_kind pk hk, h0]
    refine ⟨hro, ?_⟩
    unfold mbedtls_pk_get_group_id
    rw [hro, load_null]
    rfl
  have hdead : ec_family_kind (mbedtls_pk_get_type pk) → mem pk.pk_ctx = none →
      mbedtls_pk_get_group_id false table mem pk = none := by
    intro hk hm
    unfold mbedtls_pk_get_group_id load
    rw [ec_ro_of_ec_kind pk hk, hm]
    simp
  have hdef : ec_family_kind (mbedtls_pk_get_type pk) → pk.pk_ctx ≠ NULL →
      (mem pk.pk_ctx).isSome →
      ∃ kp : mbedtls_ecp_keypair,
        mbedtls_pk_get_group_id false table mem pk = some kp.grp.id := by
    intro hk hnn hl
    obtain ⟨kp, hkp⟩ := Option.isSome_iff_exists.mp hl
    exact ⟨kp, get_group_id_classic_of_live table mem pk kp hk hnn hkp⟩
  have hfull : (mbedtls_pk_get_group_id false table mem pk).isSome ↔
      (ec_family_kind (mbedtls_pk_get_type pk) ∧ pk.pk_ctx ≠ NULL ∧
        (mem pk.pk_ctx).isSome) := by
    constructor
    · intro hsome
      by_cases hk : ec_family_kind (mbedtls_pk_get_type pk)
      · refine ⟨hk, fun h0 => ?_, ?_⟩
        · rw [(hnull hk h0).2] at hsome
          exact absurd hsome (by decide)
        · cases hm : mem pk.pk_ctx with
          | none =>
            rw [hdead hk hm] at hsome
            exact absurd hsome (by decide)
          | some kp => rfl
      · rw [(hnon hk).2] at hsome
        exact absurd hsome (by decide)
    · rintro ⟨hk, hnn, hl⟩
      obtain ⟨kp, hkp⟩ := hdef hk hnn hl
      rw [hkp]
      rfl
  refine ⟨hfull, ?_, hnon, hnull, ?_⟩
  · intro hlive
    rw [hfull]
    exact ⟨fun h => ⟨h.1, h.2.1⟩, fun h => ⟨h.1, h.2, hlive h.1 h.2⟩⟩
  · intro hk hnn hl
    obtain ⟨kp, hkp⟩ := hdef hk hnn hl
    rw [hkp]
    exact Option.some_ne_none _

theorem get_group_id_classic_defined_iff_witness :
    (mbedtls_pk_get_group_id false sample_table sample_memory sample_ec_handle).isSome ∧
    mbedtls_pk_get_group_id false sample_table sample_memory sample_rsa_handle = none ∧
    mbedtls_pk_get_group_id false sample_table sample_memory
      { sample_ec_handle with pk_ctx := NULL } = none :=
  ⟨((get_group_id_classic_defined_iff sample_table sample_memory sample_ec_handle).2.1
      (fun _ _ => by decide)).mpr ⟨by decide, by decide⟩,
   ((get_group_id_classic_defined_iff sample_table sample_memory sample_rsa_handle).2.2.1
      (by decide)).2,
   ((get_group_id_classic_defined_iff sample_table sample_memory
      { sample_ec_handle with pk_ctx := NULL }).2.2.2.1 (by decide) rfl).2⟩

/-- C10 as written fails: for the generic EC key handle `sample_dangling_handle`, whose
storage slot is non-null but points at no live keypair, `mbedtls_pk_get_group_id` has
no defined result, so "defined exactly when the key-kind is EC-family and the slot is
non-null" does not hold. -/
theorem get_group_id_classic_dangling_slot_undefined :
    ec_family_kind (mbedtls_pk_get_type sample_dangling_handle) ∧
    sample_dangling_handle.pk_ctx ≠ NULL ∧
    mbedtls_pk_get_group_id false sample_table sample_memory sample_dangling_handle
      = none ∧
    ¬ ((mbedtls_pk_get_group_id false sample_table sample_memory
          sample_dangling_handle).isSome ↔
        (ec_family_kind (mbedtls_pk_get_type sample_dangling_handle) ∧
          sample_dangling_handle.pk_ctx ≠ NULL)) := by
  decide

end PkInternal
